import Mathlib

/-!
Shallow embedding of `packages/nodes-base/nodes/SpreadsheetFile/v2/SpreadsheetFileV2.node.ts`
(the Spreadsheet File node, version 2, of n8n).

The node's `execute` method has two directions:
  * `fromFile`: per input item, resolve the file format (autodetect / csv /
    spreadsheet-binary), extract rows through the external `csv-parse` or
    `xlsx` engine, and emit one output item per row, paired with the input
    item's index.  Failures are caught per item: with continue-on-fail an
    error record is emitted, otherwise a `NodeOperationError` carrying the
    item index aborts the whole operation.
  * `toFile`: the whole batch is serialized into a single binary output item
    whose `pairedItem` spans every input index.

External engines (`csv-parse` tokenization, `xlsx` binary decode) are
abstracted: a `BinaryData` carries the result of decoding its payload as a
CSV record stream (`asCSV`, the record list after the delimiter / fromLine /
BOM tokenization stage configured from the options) and as a workbook
(`asWorkbook`).  The record-level behaviour the node configures (`to` cap,
`columns` keying, the `onRecord` callback, sheet selection, `sheet_to_json`
option mapping) is modelled explicitly, following the engines' documented
record-level semantics.
-/

/-- Scalar cell / JSON leaf value.  JS numbers are modelled as integers;
no claim depends on floating-point behaviour. -/
inductive JScalar where
  | s (v : String)
  | n (v : Int)
deriving DecidableEq, Repr

/-- One JSON value as it appears as a field of an output item's `json`
object: a scalar, an array of scalars, or a flat object of scalars.  This
one-level shape covers every value the node produces. -/
inductive JVal1 where
  | prim (v : JScalar)
  | arr (vs : List JScalar)
  | obj (fs : List (String × JScalar))
deriving DecidableEq, Repr

/-- A JSON object (the `json` field of an output item), as an association
list in insertion order, mirroring JS object key order. -/
abbrev JObj := List (String × JVal1)

/-- One extracted row: keyed (header mode — a JS object) or positional
(header-row-false mode — a JS array). -/
inductive RowVal where
  | keyed (fs : List (String × JScalar))
  | positional (vs : List JScalar)
deriving DecidableEq, Repr

/-- The `pairedItem` tag of an output item: a single source index
(`{item: i}`, read direction) or a batch-spanning list (write direction). -/
inductive PairedItem where
  | single (item : Nat)
  | many (items : List Nat)
deriving DecidableEq, Repr

/-- The value of the `range` option: the UI supplies a number or a string. -/
inductive RangeV where
  | num (v : Int)
  | str (v : String)
deriving DecidableEq, Repr

/-- The node's `options` collection parameter.  Absent options are `none`,
mirroring `undefined` in the options object returned by
`getNodeParameter('options', i, {})`.  `delimiter`, `fromLine` and
`enableBOM` are passed through to the external CSV tokenizer, which is
abstracted by `BinaryData.asCSV`; `readAsString` and `rawData` are passed
through to the external `xlsx` decode, abstracted by
`BinaryData.asWorkbook`. -/
structure SOptions where
  delimiter : Option String := none
  fromLine : Option Int := none
  enableBOM : Option Bool := none
  maxRowCount : Option Int := none
  headerRow : Option Bool := none
  includeEmptyCells : Option Bool := none
  sheetName : Option String := none
  range : Option RangeV := none
  readAsString : Option Bool := none
  rawData : Option Bool := none

/-- JS truthiness of an optional boolean option (`undefined` and `false`
are falsy). -/
def jsTruthy : Option Bool → Bool
  | some true => true
  | _ => false

/-- The check `options.headerRow === false` used by the node. -/
def headerRowFalse (o : SOptions) : Bool := o.headerRow == some false

/-- The `columns: options.headerRow !== false` argument to the CSV parser. -/
def columnsOf (o : SOptions) : Bool := !(headerRowFalse o)

/-- The `to: maxRowCount > -1 ? maxRowCount : undefined` argument: the cap
on emitted records, if any.  An absent `maxRowCount` makes the JS comparison
`undefined > -1` false, hence no cap. -/
def toOpt (o : SOptions) : Option Nat :=
  match o.maxRowCount with
  | some m => if m > -1 then some m.toNat else none
  | none => none

/-- Record stream capping by the parser's `to` option. -/
def capRecords (t : Option Nat) (rs : List (List String)) : List (List String) :=
  match t with
  | some n => rs.take n
  | none => rs

/-- JS `Object.entries` applied to a row value: for a keyed row (JS object)
its entries in insertion order; for a positional row (JS array) the entries
are the elements keyed by their decimal index. -/
def entriesOf : RowVal → List (String × JScalar)
  | .keyed fs => fs
  | .positional vs => vs.enum.map (fun p => (toString p.1, p.2))

/-- The node's `onRecord` callback: when `includeEmptyCells` is falsy the
record is rebuilt as
`Object.fromEntries(Object.entries(record).filter(([_key, value]) => value !== ''))`.
`Object.fromEntries` always yields a JS object, so positional (array)
records are converted to index-keyed objects by this step. -/
def onRecordTransform (includeEmptyCells : Bool) (r : RowVal) : RowVal :=
  if includeEmptyCells then r
  else RowVal.keyed ((entriesOf r).filter (fun p => p.2 != JScalar.s ""))

/-- CSV record extraction performed by the configured `csv-parse` instance:
`records` is the tokenized record stream of the payload (tokenization by
delimiter / fromLine / BOM is the engine's, abstracted).  In `columns` mode
the first record supplies the column names and each later record becomes an
object keying those names to its values (the engine pairs names and values
positionally); otherwise records stay positional.  The `to` cap limits the
emitted records, and each emitted record passes through `onRecord`. -/
def csvExtract (o : SOptions) (records : List (List String)) : List RowVal :=
  let onRec := onRecordTransform (jsTruthy o.includeEmptyCells)
  if columnsOf o then
    match records with
    | [] => []
    | header :: data =>
      (capRecords (toOpt o) data).map
        (fun vs => onRec (RowVal.keyed (header.zip (vs.map JScalar.s))))
  else
    (capRecords (toOpt o) records).map (fun vs => onRec (RowVal.positional (vs.map JScalar.s)))

/-- A sheet of a workbook: a grid of rows of cells; `none` is an absent
cell. -/
abbrev Sheet := List (List (Option JScalar))

/-- An in-memory workbook: the `SheetNames` declared-order list and the
`Sheets` name-to-sheet map. -/
structure Workbook where
  sheetNames : List String
  sheets : List (String × Sheet)
deriving DecidableEq, Repr

/-- JS `workbook.Sheets[name]` for a name listed in `SheetNames`; a name
missing from the map (never produced by the engine for a listed name)
defaults to an empty grid. -/
def lookupSheet (wb : Workbook) (name : String) : Sheet :=
  match wb.sheets.lookup name with
  | some sh => sh
  | none => []

/-- An item's binary payload plus metadata, with the two external decodes
of the payload abstracted as their results: `asCSV` is the tokenized CSV
record stream (or the tokenizer's error), `asWorkbook` the decoded workbook
(or the decoder's error). -/
structure BinaryData where
  mimeType : String
  fileExtension : Option String
  asCSV : Except String (List (List String))
  asWorkbook : Except String Workbook

/-- Format resolution (lines 65-71 of the node): an `autodetect` hint with
MIME type `text/csv`, or `text/plain` together with file extension `csv`,
is rewritten to `csv`; every other hint passes through unchanged. -/
def resolveFormat (fileFormat : String) (bd : BinaryData) : String :=
  if fileFormat = "autodetect" ∧
      (bd.mimeType = "text/csv" ∨
        (bd.mimeType = "text/plain" ∧ bd.fileExtension = some "csv")) then
    "csv"
  else fileFormat

/-- The two extraction paths of the read direction. -/
inductive Route where
  | csv
  | sheet
deriving DecidableEq, Repr

/-- Which extraction path an item takes: the `if (fileFormat === 'csv')`
test after resolution; everything else goes to the spreadsheet-binary
path. -/
def routeOf (fileFormat : String) (bd : BinaryData) : Route :=
  if resolveFormat fileFormat bd = "csv" then Route.csv else Route.sheet

/-- Message of the zero-sheet failure (line 124). -/
def emptyWorkbookMessage : String := "Spreadsheet does not have any sheets!"

/-- Message of the missing-sheet failure (line 136); it embeds the
requested name verbatim. -/
def sheetNotFoundMessage (name : String) : String :=
  "Spreadsheet does not contain sheet called \"" ++ name ++ "\"!"

/-- JS truthiness of the `options.sheetName` value at line 132: absent and
empty-string names are falsy. -/
def sheetNameTruthy : Option String → Bool
  | some s => s != ""
  | none => false

/-- Sheet selection (lines 131-141): default to `SheetNames[0]`; a truthy
`sheetName` option must be listed in `SheetNames` or the item fails with
the missing-sheet error, else it is selected.  Only called on workbooks
with at least one sheet. -/
def selectSheetName (o : SOptions) (wb : Workbook) : Except String String :=
  if sheetNameTruthy o.sheetName then
    let s := o.sheetName.getD ""
    if s ∈ wb.sheetNames then Except.ok s
    else Except.error (sheetNotFoundMessage s)
  else Except.ok (wb.sheetNames.headD "")

/-- The `range` value handed to `sheet_to_json` (lines 145-151): a falsy
option (absent, `0`, or the empty string) sets none; a numeric value goes
through `parseInt`; a non-numeric string is kept as an A1-style range
expression.  `parseInt` of a fully numeric string is modelled by
`String.toNat?`. -/
def sheetRangeOpt (o : SOptions) : Option (Sum Nat String) :=
  match o.range with
  | none => none
  | some (RangeV.num v) => if v = 0 then none else some (Sum.inl v.toNat)
  | some (RangeV.str v) =>
    if v = "" then none
    else
      match v.toNat? with
      | some k => some (Sum.inl k)
      | none => some (Sum.inr v)

/-- Effect of the range value on the grid in this model: a numeric range is
the index of the first row to read; A1-style range decoding belongs to the
external grid engine and is not modelled (no claim exercises it). -/
def rangeDrop : Option (Sum Nat String) → Nat
  | some (Sum.inl k) => k
  | _ => 0

/-- The `defval` option (lines 153-155): a truthy `includeEmptyCells` makes
absent cells materialize as empty strings. -/
def defvalOf (o : SOptions) : Option JScalar :=
  if jsTruthy o.includeEmptyCells then some (JScalar.s "") else none

/-- Column name read from a header cell by the grid engine: the cell's text
(absent header cells get the engine's placeholder name). -/
def headerKeyOfCell : Option JScalar → String
  | some (JScalar.s v) => v
  | some (JScalar.n v) => toString v
  | none => "__EMPTY"

/-- Pair the header's column names with one data row's cells: a present
cell contributes its value under its column name; an absent cell
contributes the `defval` entry when one is set and is omitted otherwise. -/
def keyedEntries (defval : Option JScalar) : List String → List (Option JScalar) → List (String × JScalar)
  | k :: ks, c :: cs =>
    (match c with
     | some v => [(k, v)]
     | none =>
       match defval with
       | some d => [(k, d)]
       | none => []) ++ keyedEntries defval ks cs
  | _, _ => []

/-- Grid-to-rows conversion (`xlsx.utils.sheet_to_json`) at the record
level, for the option combinations the node produces: `headerMode1` is the
`header: 1` positional mode (every row is data); otherwise the first row
supplies the column names and the following rows become keyed records.  In
positional mode a present cell yields its value, an absent cell the
`defval` when set and is dropped otherwise. -/
def sheet_to_json (headerMode1 : Bool) (defval : Option JScalar) (drop : Nat) (sh : Sheet) : List RowVal :=
  let rows := sh.drop drop
  if headerMode1 then
    rows.map (fun cells =>
      RowVal.positional
        (match defval with
         | some d => cells.map (fun c => c.getD d)
         | none => cells.filterMap id))
  else
    match rows with
    | [] => []
    | hdr :: data =>
      data.map (fun cells => RowVal.keyed (keyedEntries defval (hdr.map headerKeyOfCell) cells))

/-- Spreadsheet-path extraction for one item (lines 105-161): fail on a
workbook with zero sheets, select the sheet, then convert it to rows with
the option-mapped `sheet_to_json` arguments. -/
def spreadsheetExtract (o : SOptions) (wb : Workbook) : Except String (List RowVal) :=
  if wb.sheetNames.length = 0 then Except.error emptyWorkbookMessage
  else
    match selectSheetName o wb with
    | Except.error e => Except.error e
    | Except.ok name =>
      Except.ok
        (sheet_to_json (headerRowFalse o) (defvalOf o) (rangeDrop (sheetRangeOpt o))
          (lookupSheet wb name))

/-- One scalar record `{key: scalar, ...}` — the shape of an input item's
`json` the write direction serializes and the round-trip claim ranges
over. -/
abbrev SRec := List (String × JScalar)

/-- Association-list lookup in JS object key order (first match wins). -/
def assocGet {β : Type} (k : String) : List (String × β) → Option β
  | [] => none
  | p :: ps => if p.1 = k then some p.2 else assocGet k ps

/-- One input item of the batch together with its per-index parameters:
its structured `json` (read by the write direction), the `fileFormat`
parameter, the `options` parameter and the result of
`assertBinaryData` (which fails when the named binary property is
missing). -/
structure ItemInput where
  json : SRec
  fileFormat : String
  options : SOptions
  binary : Except String BinaryData

/-- A row value as a field of an output object: keyed rows are objects,
positional rows arrays. -/
def toJVal1 : RowVal → JVal1
  | RowVal.keyed fs => JVal1.obj fs
  | RowVal.positional vs => JVal1.arr vs

/-- An extracted row as the `json` of an output item, in the
`headerRow !== false` branch (lines 183-190): the row's fields become the
object's fields directly.  A positional row in this branch (unreachable:
positional rows only arise when `headerRow === false`) is rendered the way
JS views an array as an object, keyed by decimal indices. -/
def objOfRow : RowVal → JObj
  | RowVal.keyed fs => fs.map (fun p => (p.1, JVal1.prim p.2))
  | RowVal.positional vs => vs.enum.map (fun p => (toString p.1, JVal1.prim p.2))

/-- One output item of the node: its `json` object, its binary map and its
`pairedItem` tag. -/
structure OutputItem where
  json : JObj
  binary : List (String × String × Workbook)
  pairedItem : PairedItem
deriving DecidableEq, Repr

/-- Row-to-item mapping for input index `i` (lines 169-191): with
`headerRow === false` each row is wrapped under a single `row` field,
otherwise the row's fields are the item's fields; both tag the item with
`pairedItem = {item: i}`. -/
def rowsToItems (i : Nat) (hrFalse : Bool) (rows : List RowVal) : List OutputItem :=
  if hrFalse then
    rows.map (fun r => { json := [("row", toJVal1 r)], binary := [], pairedItem := PairedItem.single i })
  else
    rows.map (fun r => { json := objOfRow r, binary := [], pairedItem := PairedItem.single i })

/-- The continue-on-fail error record for input index `i` (lines 193-202):
`json` is `{error: message}` and `pairedItem` is `{item: i}`. -/
def errorItem (i : Nat) (msg : String) : OutputItem :=
  { json := [("error", JVal1.prim (JScalar.s msg))], binary := [], pairedItem := PairedItem.single i }

/-- Row extraction for one input item of the read direction (the body of
the `try` at lines 57-167): assert the binary data, resolve and route the
format, and run the matching extractor.  The spreadsheet branch's
`rows.length === 0` `continue` is observationally the empty row list (the
mapping loop then appends nothing). -/
def itemRows (it : ItemInput) : Except String (List RowVal) :=
  match it.binary with
  | Except.error e => Except.error e
  | Except.ok bd =>
    match routeOf it.fileFormat bd with
    | Route.csv =>
      match bd.asCSV with
      | Except.error e => Except.error e
      | Except.ok records => Except.ok (csvExtract it.options records)
    | Route.sheet =>
      match bd.asWorkbook with
      | Except.error e => Except.error e
      | Except.ok wb => spreadsheetExtract it.options wb

/-- An aborted execution: the thrown error's message and, for the read
direction's `NodeOperationError`, the item index it is attributed to. -/
structure ExecError where
  msg : String
  itemIndex : Option Nat
deriving DecidableEq, Repr

/-- The read-direction item loop (lines 56-206), processing the items in
order starting at index `i`: a successful item appends its mapped rows; a
failing item appends one error record and continues when `continueOnFail`
is set, and otherwise aborts the whole run with the failure attributed to
its index. -/
def runFromFile (cof : Bool) : Nat → List ItemInput → Except ExecError (List OutputItem)
  | _, [] => Except.ok []
  | i, it :: rest =>
    match itemRows it with
    | Except.ok rows =>
      match runFromFile cof (i + 1) rest with
      | Except.ok tail => Except.ok (rowsToItems i (headerRowFalse it.options) rows ++ tail)
      | Except.error e => Except.error e
    | Except.error msg =>
      if cof then
        match runFromFile cof (i + 1) rest with
        | Except.ok tail => Except.ok (errorItem i msg :: tail)
        | Except.error e => Except.error e
      else Except.error { msg := msg, itemIndex := some i }

/-- Outputs of the item loop when it cannot abort (continue-on-fail):
each item in order contributes its mapped rows, or its single error
record. -/
def cofOutputs : Nat → List ItemInput → List OutputItem
  | _, [] => []
  | i, it :: rest =>
    (match itemRows it with
     | Except.ok rows => rowsToItems i (headerRowFalse it.options) rows
     | Except.error msg => [errorItem i msg]) ++ cofOutputs (i + 1) rest

/-- Modelled from the spec: `generatePairedItemData` (from
`packages/nodes-base/utils/utilities.ts`, not part of the shown sources)
produces a paired-item reference spanning every index of the input batch. -/
def generatePairedItemData (n : Nat) : PairedItem :=
  PairedItem.many (List.range n)

/-- Column-name accumulation over one record's keys: a key not seen yet is
appended, preserving first-appearance order. -/
def addKeys : List String → List String → List String
  | acc, [] => acc
  | acc, k :: ks => if k ∈ acc then addKeys acc ks else addKeys (acc ++ [k]) ks

/-- Column-name accumulation over a record batch. -/
def headerFrom (acc : List String) : List SRec → List String
  | [] => acc
  | r :: rs => headerFrom (addKeys acc (r.map Prod.fst)) rs

/-- The serialized header: every key of every record, in first-appearance
order. -/
def headerOf (recs : List SRec) : List String := headerFrom [] recs

/-- Modelled from the spec: the grid built by the serializer
(`convertJsonToSpreadsheetBinary` / `json_to_sheet`, from
`packages/nodes-base/utils/binary.ts`, not part of the shown sources) —
all records' fields serialized as rows under the accumulated column
header; with `headerRow` false the header row is skipped and only the
value rows are written. -/
def serializeSheet (headerRow : Bool) (recs : List SRec) : Sheet :=
  let hdr := headerOf recs
  let dataRows := recs.map (fun r => hdr.map (fun k => assocGet k r))
  if headerRow then (hdr.map (fun k => some (JScalar.s k))) :: dataRows else dataRows

/-- The write direction's recognized target formats. -/
def spreadsheetFormats : List String := ["csv", "html", "rtf", "ods", "xls", "xlsx"]

/-- Modelled from the spec: `convertJsonToSpreadsheetBinary` (from
`packages/nodes-base/utils/binary.ts`, not part of the shown sources)
produces exactly one binary payload holding all input records serialized
as rows of the target format; an unrecognized format makes it fail.  The
payload is modelled as the written workbook tagged with its format;
byte-level encoding is the external engine's. -/
def convertJsonToSpreadsheetBinary (recs : List SRec) (fileFormat : String) (o : SOptions) :
    Except String (String × Workbook) :=
  if fileFormat ∈ spreadsheetFormats then
    Except.ok
      (fileFormat,
        { sheetNames := ["Sheet"],
          sheets := [("Sheet", serializeSheet (!(headerRowFalse o)) recs)] })
  else Except.error ("Unsupported file format " ++ fileFormat)

/-- The write direction (lines 211-246): serialize the whole batch into
one output item whose binary lives under the `binaryPropertyName`
parameter and whose `pairedItem` spans the batch; a failure becomes one
error record with the same batch-spanning `pairedItem` under
continue-on-fail and is rethrown otherwise. -/
def executeToFile (cof : Bool) (bpn fileFormat : String) (o : SOptions) (recs : List SRec)
    (n : Nat) : Except ExecError (List OutputItem) :=
  let paired := generatePairedItemData n
  match convertJsonToSpreadsheetBinary recs fileFormat o with
  | Except.ok bin =>
    Except.ok [{ json := [], binary := [(bpn, bin)], pairedItem := paired }]
  | Except.error msg =>
    if cof then
      Except.ok [{ json := [("error", JVal1.prim (JScalar.s msg))], binary := [], pairedItem := paired }]
    else Except.error { msg := msg, itemIndex := none }

/-- The execution environment of one `execute` call: the `operation`
parameter, the continue-on-fail flag, the input items with their per-index
parameters, and the index-0 parameters the write direction reads. -/
structure ExecEnv where
  operation : String
  continueOnFail : Bool
  items : List ItemInput
  binaryPropertyName0 : String
  fileFormat0 : String
  options0 : SOptions

/-- The node's `execute` (lines 49-249): dispatch on `operation`; any
other operation value falls through both branches and returns the
untouched empty `newItems` list. -/
def execute (env : ExecEnv) : Except ExecError (List (List OutputItem)) :=
  if env.operation = "fromFile" then
    match runFromFile env.continueOnFail 0 env.items with
    | Except.ok l => Except.ok [l]
    | Except.error e => Except.error e
  else if env.operation = "toFile" then
    match executeToFile env.continueOnFail env.binaryPropertyName0 env.fileFormat0 env.options0
        (env.items.map ItemInput.json) env.items.length with
    | Except.ok l => Except.ok [l]
    | Except.error e => Except.error e
  else Except.ok [[]]

/-- Round trip of a scalar-record batch: serialize through the write
direction (format `xlsx`), then feed the produced workbook payload back
through the read direction's spreadsheet path, with the same `headerRow`
option on both sides and every other option at its default. -/
def roundTrip (hr : Option Bool) (recs : List SRec) : Except ExecError (List OutputItem) :=
  let o : SOptions := { headerRow := hr }
  match executeToFile false "data" "xlsx" o recs recs.length with
  | Except.error e => Except.error e
  | Except.ok outs =>
    match outs with
    | [item] =>
      match item.binary with
      | [(_, _, wb)] =>
        let bd : BinaryData :=
          { mimeType := "application/octet-stream", fileExtension := none,
            asCSV := Except.error "not a csv payload", asWorkbook := Except.ok wb }
        runFromFile false 0 [{ json := [], fileFormat := "autodetect", options := o,
                               binary := Except.ok bd }]
      | _ => Except.error { msg := "missing binary payload", itemIndex := none }
    | _ => Except.error { msg := "unexpected output shape", itemIndex := none }

/-- Number of records the configured parse emits before any `to` cap: in
`columns` mode the first record is consumed as the header. -/
def csvDataCount (o : SOptions) (records : List (List String)) : Nat :=
  if columnsOf o then records.length - 1 else records.length

/-- A well-formed CSV input item used as a concrete instance: one header
record and one value record. -/
def csvGoodItem : ItemInput :=
  { json := [], fileFormat := "autodetect", options := {},
    binary := Except.ok
      { mimeType := "text/csv", fileExtension := some "csv",
        asCSV := Except.ok [["h"], ["v"]], asWorkbook := Except.error "not a workbook" } }

/-- A second well-formed CSV input item. -/
def csvGoodItem2 : ItemInput :=
  { json := [], fileFormat := "autodetect", options := {},
    binary := Except.ok
      { mimeType := "text/csv", fileExtension := some "csv",
        asCSV := Except.ok [["h"], ["w"]], asWorkbook := Except.error "not a workbook" } }

/-- An input item whose binary-data assertion fails. -/
def brokenItem : ItemInput :=
  { json := [], fileFormat := "autodetect", options := {},
    binary := Except.error "binary property missing" }

/-- An input item carrying a workbook whose only sheet is an empty grid. -/
def emptySheetItem : ItemInput :=
  { json := [], fileFormat := "autodetect", options := {},
    binary := Except.ok
      { mimeType := "application/octet-stream", fileExtension := none,
        asCSV := Except.error "not a csv payload",
        asWorkbook := Except.ok { sheetNames := ["Sheet1"], sheets := [("Sheet1", [])] } } }

/-- A write-direction environment with one scalar input record. -/
def toFileEnvW : ExecEnv :=
  { operation := "toFile", continueOnFail := false,
    items := [{ json := [("a", JScalar.s "1")], fileFormat := "xlsx", options := {},
                binary := Except.error "unused" }],
    binaryPropertyName0 := "data", fileFormat0 := "xlsx", options0 := {} }

/-- An environment whose `operation` is neither `fromFile` nor `toFile`. -/
def noopEnv : ExecEnv :=
  { operation := "doNothing", continueOnFail := false,
    items := [csvGoodItem], binaryPropertyName0 := "data",
    fileFormat0 := "xlsx", options0 := {} }

/-- C1 counterexample input: one positional record with an empty middle
cell, parsed with `headerRow = false`. -/
def positionalOpts : SOptions := { headerRow := some false }

/-- C1 counterexample options with empty cells retained. -/
def positionalOptsKeep : SOptions := { headerRow := some false, includeEmptyCells := some true }

/-- C1: the claim's positional half is false on the code: with
`includeEmptyCells` falsy the `onRecord` callback rebuilds every record via
`Object.fromEntries(Object.entries(...).filter(...))`, so a positional
(array) record becomes an index-keyed object and its empty-string cells are
dropped, while the same input with `includeEmptyCells = true` keeps the
positional row intact. -/
theorem csv_positional_row_altered :
    csvExtract positionalOpts [["a", "", "b"]] =
      [RowVal.keyed [("0", JScalar.s "a"), ("2", JScalar.s "b")]]
  ∧ csvExtract positionalOptsKeep [["a", "", "b"]] =
      [RowVal.positional [JScalar.s "a", JScalar.s "", JScalar.s "b"]]
  ∧ RowVal.keyed [("0", JScalar.s "a"), ("2", JScalar.s "b")] ≠
      RowVal.positional [JScalar.s "a", JScalar.s "", JScalar.s "b"] := by
  refine ⟨rfl, rfl, ?_⟩
  decide

/-- C1 (amended): with `includeEmptyCells` falsy, every extracted record —
keyed or positional — is the keyed mapping of its JS `Object.entries`
(positional records keyed by decimal index) with exactly the empty-string
valued entries omitted; with `includeEmptyCells` true every record passes
through unchanged. -/
theorem csv_includeEmptyCells_filtering (o : SOptions) (records : List (List String))
    (hoff : jsTruthy o.includeEmptyCells = false) :
    csvExtract o records =
      (csvExtract { o with includeEmptyCells := some true } records).map
        (fun r => RowVal.keyed ((entriesOf r).filter (fun p => p.2 != JScalar.s "")))
  ∧ ∀ r : RowVal, ∀ k : String, ∀ v : JScalar,
      ((k, v) ∈ (entriesOf r).filter (fun p => p.2 != JScalar.s "") ↔
        (k, v) ∈ entriesOf r ∧ v ≠ JScalar.s "") := by
  constructor
  · have hon : jsTruthy (SOptions.includeEmptyCells { o with includeEmptyCells := some true }) = true := rfl
    have hc2 : columnsOf { o with includeEmptyCells := some true } = columnsOf o := rfl
    have ht2 : toOpt { o with includeEmptyCells := some true } = toOpt o := rfl
    simp only [csvExtract, hoff, hon, hc2, ht2, onRecordTransform, if_true, if_false,
      Bool.false_eq_true]
    cases hcols : columnsOf o with
    | true =>
      simp only [hcols, if_true]
      cases records with
      | nil => simp
      | cons header data => simp [List.map_map]
    | false =>
      simp only [hcols, Bool.false_eq_true, if_false]
      simp [List.map_map]
  · intro r k v
    simp [List.mem_filter, bne_iff_ne]

/-- C1 witness: the filtering characterization evaluated on a two-column
CSV with one empty cell in header mode. -/
theorem csv_includeEmptyCells_filtering_witness :
    (csvExtract {} [["h1", "h2"], ["v", ""]] =
      (csvExtract { includeEmptyCells := some true } [["h1", "h2"], ["v", ""]]).map
        (fun r => RowVal.keyed ((entriesOf r).filter (fun p => p.2 != JScalar.s ""))))
  ∧ csvExtract {} [["h1", "h2"], ["v", ""]] = [RowVal.keyed [("h1", JScalar.s "v")]] :=
  ⟨(csv_includeEmptyCells_filtering {} [["h1", "h2"], ["v", ""]] rfl).1, rfl⟩

/-- C4: a workbook with zero sheets makes spreadsheet extraction fail with
the empty-workbook error, whatever the other options are. -/
theorem empty_workbook_always_fails (o : SOptions) (wb : Workbook)
    (h : wb.sheetNames = []) :
    spreadsheetExtract o wb = Except.error emptyWorkbookMessage := by
  simp [spreadsheetExtract, h]

/-- C4 witness: the empty workbook fails even with every option set. -/
theorem empty_workbook_always_fails_witness :
    spreadsheetExtract
      { headerRow := some false, includeEmptyCells := some true,
        sheetName := some "Sheet1", range := some (RangeV.num 3),
        readAsString := some true, rawData := some true }
      { sheetNames := [], sheets := [] } = Except.error emptyWorkbookMessage :=
  empty_workbook_always_fails _ _ rfl

/-- C5: a `maxRowCount` above `-1` caps the emitted rows at exactly that
count (or at the available records when fewer), while an absent or `-1`
value leaves all records in place. -/
theorem maxRowCount_policy (o : SOptions) (records : List (List String)) (m : Int) :
    (o.maxRowCount = some m → m > -1 →
      (csvExtract o records).length = min m.toNat (csvDataCount o records))
  ∧ (o.maxRowCount = none ∨ o.maxRowCount = some (-1) →
      (csvExtract o records).length = csvDataCount o records) := by
  constructor
  · intro hm hgt
    have hcap : toOpt o = some m.toNat := by simp [toOpt, hm, hgt]
    simp only [csvExtract, csvDataCount, hcap, capRecords]
    cases hcols : columnsOf o with
    | true =>
      cases records with
      | nil => simp
      | cons header data => simp [List.length_take]
    | false => simp [List.length_take]
  · intro hm
    have hcap : toOpt o = none := by
      rcases hm with hm | hm <;> simp [toOpt, hm]
    simp only [csvExtract, csvDataCount, hcap, capRecords]
    cases hcols : columnsOf o with
    | true =>
      cases records with
      | nil => simp
      | cons header data => simp
    | false => simp

/-- C5 witness: `maxRowCount = 5` on a 100-record positional CSV yields
exactly 5 rows. -/
theorem maxRowCount_policy_witness :
    (csvExtract { headerRow := some false, maxRowCount := some 5 }
        (List.replicate 100 ["x"])).length =
      min (Int.toNat 5)
        (csvDataCount { headerRow := some false, maxRowCount := some 5 }
          (List.replicate 100 ["x"])) :=
  (maxRowCount_policy { headerRow := some false, maxRowCount := some 5 }
    (List.replicate 100 ["x"]) 5).1 rfl (by decide)

/-- C6: under the `autodetect` hint an item is routed to the CSV path
exactly when its MIME type is `text/csv`, or is `text/plain` with file
extension `csv`; detection is total — every item is routed to one of the
two paths. -/
theorem autodetect_routing (bd : BinaryData) :
    ((bd.mimeType = "text/csv" ∨ (bd.mimeType = "text/plain" ∧ bd.fileExtension = some "csv")) ↔
      routeOf "autodetect" bd = Route.csv)
  ∧ (routeOf "autodetect" bd = Route.csv ∨ routeOf "autodetect" bd = Route.sheet) := by
  constructor
  · by_cases hc : bd.mimeType = "text/csv" ∨ (bd.mimeType = "text/plain" ∧ bd.fileExtension = some "csv")
    · simp [routeOf, resolveFormat, hc]
    · simp [routeOf, resolveFormat, hc]
  · by_cases hc : bd.mimeType = "text/csv" ∨ (bd.mimeType = "text/plain" ∧ bd.fileExtension = some "csv")
    · simp [routeOf, resolveFormat, hc]
    · simp [routeOf, resolveFormat, hc]

/-- C10: an `operation` that is neither `fromFile` nor `toFile` falls
through both branches, so `execute` returns the single untouched empty
output list without failing. -/
theorem unknown_operation_yields_empty (env : ExecEnv)
    (h1 : env.operation ≠ "fromFile") (h2 : env.operation ≠ "toFile") :
    execute env = Except.ok [[]] := by
  simp [execute, h1, h2]

/-- C10 witness: a `doNothing` operation on a nonempty batch returns one
empty output list. -/
theorem unknown_operation_yields_empty_witness :
    execute noopEnv = Except.ok [[]] :=
  unknown_operation_yields_empty noopEnv (by decide) (by decide)

/-- Helper: with continue-on-fail the item loop never aborts and yields
exactly the per-item outputs. -/
theorem runFromFile_cof_ok (l : List ItemInput) :
    ∀ i, runFromFile true i l = Except.ok (cofOutputs i l) := by
  induction l with
  | nil => intro i; rfl
  | cons it rest ih =>
    intro i
    cases h : itemRows it with
    | ok rows => simp [runFromFile, cofOutputs, h, ih (i + 1)]
    | error msg => simp [runFromFile, cofOutputs, h, ih (i + 1)]

/-- Helper: per-item outputs split along a batch split. -/
theorem cofOutputs_append (l1 l2 : List ItemInput) :
    ∀ i, cofOutputs i (l1 ++ l2) = cofOutputs i l1 ++ cofOutputs (i + l1.length) l2 := by
  induction l1 with
  | nil => intro i; simp [cofOutputs]
  | cons it rest ih =>
    intro i
    have harith : i + 1 + rest.length = i + (rest.length + 1) := by omega
    simp only [List.cons_append, cofOutputs, List.length_cons, List.append_eq]
    rw [ih (i + 1), harith]
    simp [List.append_assoc]

/-- Helper: every row-derived output of item `i` is paired with `i`. -/
theorem rowsToItems_paired (i : Nat) (hr : Bool) (rows : List RowVal) :
    ∀ x ∈ rowsToItems i hr rows, x.pairedItem = PairedItem.single i := by
  intro x hx
  cases hr with
  | true =>
    simp only [rowsToItems, if_true] at hx
    obtain ⟨r, _, rfl⟩ := List.mem_map.mp hx
    rfl
  | false =>
    simp only [rowsToItems, Bool.false_eq_true, if_false] at hx
    obtain ⟨r, _, rfl⟩ := List.mem_map.mp hx
    rfl

/-- Helper: every output of the loop over items starting at `i` is paired
with an index in the processed span. -/
theorem cofOutputs_paired (l : List ItemInput) :
    ∀ i, ∀ x ∈ cofOutputs i l, ∀ j, x.pairedItem = PairedItem.single j →
      i ≤ j ∧ j < i + l.length := by
  induction l with
  | nil => intro i x hx; simp [cofOutputs] at hx
  | cons it rest ih =>
    intro i x hx j hj
    simp only [cofOutputs, List.mem_append] at hx
    rcases hx with hx | hx
    · have hpi : x.pairedItem = PairedItem.single i := by
        cases h : itemRows it with
        | ok rows =>
          rw [h] at hx
          exact rowsToItems_paired i _ rows x hx
        | error msg =>
          rw [h] at hx
          simp at hx
          rw [hx]
          rfl
      rw [hpi] at hj
      injection hj with hij
      subst hij
      simp only [List.length_cons]
      omega
    · have hb := ih (i + 1) x hx j hj
      simp only [List.length_cons]
      omega

/-- Helper: without continue-on-fail, the first failing item aborts the
loop with its message and index, whatever follows it. -/
theorem runFromFile_abort (bad : ItemInput) (msg : String)
    (hbad : itemRows bad = Except.error msg) :
    ∀ pre : List ItemInput, (∀ it ∈ pre, ∃ rows, itemRows it = Except.ok rows) →
      ∀ i (post : List ItemInput),
        runFromFile false i (pre ++ bad :: post) =
          Except.error { msg := msg, itemIndex := some (i + pre.length) } := by
  intro pre
  induction pre with
  | nil =>
    intro _ i post
    simp [runFromFile, hbad]
  | cons it rest ih =>
    intro hpre i post
    obtain ⟨rows, hit⟩ := hpre it (by simp)
    have hrest : ∀ x ∈ rest, ∃ rows, itemRows x = Except.ok rows := fun x hx =>
      hpre x (by simp [hx])
    have harith : i + 1 + rest.length = i + (rest.length + 1) := by omega
    simp only [List.cons_append, runFromFile, hit, List.append_eq]
    rw [ih hrest (i + 1) post, harith]
    simp

/-- C2: failure policy of the read direction at the first failing item
index (`pre.length`).  With continue-on-fail the run succeeds and its
output holds exactly one record paired with that index — the error record
`{error: message}` — between the outputs of the earlier items (all paired
below it) and of the later items (all paired above it, so processing
continued).  Without continue-on-fail, when all earlier items succeed the
run aborts with the failure message attributed to that index, whatever
items follow (they are never processed). -/
theorem fromFile_failure_policy (pre post : List ItemInput) (bad : ItemInput) (msg : String)
    (hbad : itemRows bad = Except.error msg) :
    (runFromFile true 0 (pre ++ bad :: post) =
        Except.ok (cofOutputs 0 pre ++ errorItem pre.length msg ::
          cofOutputs (pre.length + 1) post)
      ∧ (errorItem pre.length msg).json = [("error", JVal1.prim (JScalar.s msg))]
      ∧ (errorItem pre.length msg).pairedItem = PairedItem.single pre.length
      ∧ (∀ x ∈ cofOutputs 0 pre, ∀ j, x.pairedItem = PairedItem.single j → j < pre.length)
      ∧ (∀ x ∈ cofOutputs (pre.length + 1) post, ∀ j,
          x.pairedItem = PairedItem.single j → pre.length < j))
  ∧ ((∀ it ∈ pre, ∃ rows, itemRows it = Except.ok rows) →
      ∀ post2 : List ItemInput,
        runFromFile false 0 (pre ++ bad :: post2) =
          Except.error { msg := msg, itemIndex := some pre.length }) := by
  constructor
  · refine ⟨?_, rfl, rfl, ?_, ?_⟩
    · rw [runFromFile_cof_ok, cofOutputs_append]
      simp [cofOutputs, hbad]
    · intro x hx j hj
      have hb := cofOutputs_paired pre 0 x hx j hj
      omega
    · intro x hx j hj
      have hb := cofOutputs_paired post (pre.length + 1) x hx j hj
      omega
  · intro hpre post2
    have hb := runFromFile_abort bad msg hbad pre hpre 0 post2
    simpa using hb

/-- C2 witness: a three-item batch whose middle item has no binary data. -/
theorem fromFile_failure_policy_witness :
    (runFromFile true 0 ([csvGoodItem] ++ brokenItem :: [csvGoodItem2]) =
        Except.ok (cofOutputs 0 [csvGoodItem] ++ errorItem 1 "binary property missing" ::
          cofOutputs 2 [csvGoodItem2])
      ∧ (errorItem 1 "binary property missing").json =
          [("error", JVal1.prim (JScalar.s "binary property missing"))])
  ∧ runFromFile false 0 ([csvGoodItem] ++ brokenItem :: [csvGoodItem2]) =
      Except.error { msg := "binary property missing", itemIndex := some 1 } := by
  have h := fromFile_failure_policy [csvGoodItem] [csvGoodItem2] brokenItem
    "binary property missing" rfl
  exact ⟨⟨h.1.1, h.1.2.1⟩,
    h.2 (by intro it hit; simp at hit; subst hit; exact ⟨_, rfl⟩) [csvGoodItem2]⟩

/-- C3: sheet-selection policy on a workbook with at least one sheet: a
provided (truthy) sheet name missing from `SheetNames` fails the item with
the sheet-not-found error, whose message contains the requested name
verbatim; a provided name that is listed is selected; a falsy (absent or
empty) name selects the first sheet in declared order. -/
theorem sheet_selection_policy (o : SOptions) (wb : Workbook) (s first : String)
    (rest : List String) (hwb : wb.sheetNames = first :: rest) :
    (o.sheetName = some s → s ≠ "" → s ∉ wb.sheetNames →
        spreadsheetExtract o wb = Except.error (sheetNotFoundMessage s)
        ∧ ∃ a b, sheetNotFoundMessage s = a ++ s ++ b)
  ∧ (o.sheetName = some s → s ≠ "" → s ∈ wb.sheetNames → selectSheetName o wb = Except.ok s)
  ∧ (sheetNameTruthy o.sheetName = false → selectSheetName o wb = Except.ok first) := by
  refine ⟨?_, ?_, ?_⟩
  · intro hs hne hmem
    have htruthy : sheetNameTruthy (some s) = true := by
      simp only [sheetNameTruthy, bne_iff_ne, ne_eq]
      exact hne
    have hsel : selectSheetName o wb = Except.error (sheetNotFoundMessage s) := by
      simp [selectSheetName, hs, htruthy, hmem]
    constructor
    · simp [spreadsheetExtract, hwb, hsel]
    · exact ⟨"Spreadsheet does not contain sheet called \"", "\"!", rfl⟩
  · intro hs hne hmem
    have htruthy : sheetNameTruthy (some s) = true := by
      simp only [sheetNameTruthy, bne_iff_ne, ne_eq]
      exact hne
    simp [selectSheetName, hs, htruthy, hmem]
  · intro hf
    simp [selectSheetName, hf, hwb]

/-- C3 witness: requesting sheet `Missing` from a one-sheet workbook fails
with a message embedding `Missing`. -/
theorem sheet_selection_policy_witness :
    spreadsheetExtract { sheetName := some "Missing" }
        { sheetNames := ["S1"], sheets := [("S1", [])] } =
      Except.error (sheetNotFoundMessage "Missing")
    ∧ ∃ a b, sheetNotFoundMessage "Missing" = a ++ "Missing" ++ b :=
  (sheet_selection_policy { sheetName := some "Missing" }
    { sheetNames := ["S1"], sheets := [("S1", [])] } "Missing" "S1" [] rfl).1
    rfl (by decide) (by decide)

/-- C7: the write direction emits exactly one output item: on success its
binary field under the `binaryPropertyName` parameter holds the serialized
batch payload and its `pairedItem` spans every input index; on failure
under continue-on-fail the single item is instead the error record with
the same batch-spanning `pairedItem`. -/
theorem toFile_batched_output (env : ExecEnv) (hop : env.operation = "toFile") :
    (∀ bin, convertJsonToSpreadsheetBinary (env.items.map ItemInput.json)
        env.fileFormat0 env.options0 = Except.ok bin →
      execute env =
        Except.ok [[{ json := [], binary := [(env.binaryPropertyName0, bin)],
                      pairedItem := PairedItem.many (List.range env.items.length) }]])
  ∧ (∀ msg, convertJsonToSpreadsheetBinary (env.items.map ItemInput.json)
        env.fileFormat0 env.options0 = Except.error msg →
      env.continueOnFail = true →
      execute env =
        Except.ok [[{ json := [("error", JVal1.prim (JScalar.s msg))], binary := [],
                      pairedItem := PairedItem.many (List.range env.items.length) }]]) := by
  have hne : env.operation ≠ "fromFile" := by rw [hop]; decide
  constructor
  · intro bin hbin
    simp [execute, hne, hop, executeToFile, hbin, generatePairedItemData]
  · intro msg hmsg hcof
    simp [execute, hne, hop, executeToFile, hmsg, hcof, generatePairedItemData]

/-- C7 witness: one input record serialized to `xlsx` yields one output
item paired with the whole (one-element) batch. -/
theorem toFile_batched_output_witness :
    execute toFileEnvW =
      Except.ok [[{ json := [],
                    binary := [("data", ("xlsx",
                      { sheetNames := ["Sheet"],
                        sheets := [("Sheet",
                          serializeSheet true (toFileEnvW.items.map ItemInput.json))] }))],
                    pairedItem := PairedItem.many (List.range 1) }]] :=
  (toFile_batched_output toFileEnvW rfl).1 _ rfl

/-- C8: a spreadsheet-path item whose selected sheet converts to zero rows
succeeds with zero rows, and the item loop treats it exactly as a skip:
the run over the batch equals the run over the remaining items. -/
theorem empty_sheet_soft_skip (it : ItemInput) (bd : BinaryData) (wb : Workbook) (name : String)
    (hbin : it.binary = Except.ok bd)
    (hroute : routeOf it.fileFormat bd = Route.sheet)
    (hwb : bd.asWorkbook = Except.ok wb)
    (hne : wb.sheetNames.length ≠ 0)
    (hsel : selectSheetName it.options wb = Except.ok name)
    (hrows : sheet_to_json (headerRowFalse it.options) (defvalOf it.options)
        (rangeDrop (sheetRangeOpt it.options)) (lookupSheet wb name) = []) :
    itemRows it = Except.ok []
  ∧ ∀ cof i rest, runFromFile cof i (it :: rest) = runFromFile cof (i + 1) rest := by
  have hext : spreadsheetExtract it.options wb = Except.ok [] := by
    simp [spreadsheetExtract, hne, hsel, hrows]
  have hitem : itemRows it = Except.ok [] := by
    simp [itemRows, hbin, hroute, hwb, hext]
  refine ⟨hitem, ?_⟩
  intro cof i rest
  simp only [runFromFile, hitem]
  cases h : runFromFile cof (i + 1) rest with
  | ok tail => simp [rowsToItems]
  | error e => rfl

/-- C8 witness: a workbook whose only sheet is empty contributes nothing
and lets the loop move on. -/
theorem empty_sheet_soft_skip_witness :
    itemRows emptySheetItem = Except.ok []
  ∧ ∀ cof i rest, runFromFile cof i (emptySheetItem :: rest) = runFromFile cof (i + 1) rest :=
  empty_sheet_soft_skip emptySheetItem _ _ "Sheet1" rfl rfl rfl (by decide) rfl rfl

/-- Helper: key accumulation keeps every already-present key. -/
theorem addKeys_sub (ks : List String) : ∀ acc k, k ∈ acc → k ∈ addKeys acc ks := by
  induction ks with
  | nil => intro acc k hk; exact hk
  | cons x ks ih =>
    intro acc k hk
    simp only [addKeys]
    by_cases hx : x ∈ acc
    · rw [if_pos hx]; exact ih acc k hk
    · rw [if_neg hx]; exact ih _ k (by simp [hk])

/-- Helper: key accumulation contains every accumulated key. -/
theorem addKeys_mem (ks : List String) : ∀ acc k, k ∈ ks → k ∈ addKeys acc ks := by
  induction ks with
  | nil => intro acc k hk; cases hk
  | cons x ks ih =>
    intro acc k hk
    simp only [addKeys]
    rcases List.mem_cons.mp hk with rfl | hk2
    · by_cases hx : k ∈ acc
      · rw [if_pos hx]; exact addKeys_sub ks acc k hx
      · rw [if_neg hx]; exact addKeys_sub ks _ k (by simp)
    · by_cases hx : x ∈ acc
      · rw [if_pos hx]; exact ih acc k hk2
      · rw [if_neg hx]; exact ih _ k hk2

/-- Helper: key accumulation preserves freedom from duplicates. -/
theorem addKeys_nodup (ks : List String) : ∀ acc, acc.Nodup → (addKeys acc ks).Nodup := by
  induction ks with
  | nil => intro acc h; exact h
  | cons x ks ih =>
    intro acc h
    simp only [addKeys]
    by_cases hx : x ∈ acc
    · rw [if_pos hx]; exact ih acc h
    · rw [if_neg hx]
      refine ih _ ?_
      simp [List.nodup_append, h, hx]

/-- Helper: the header fold keeps every already-present key. -/
theorem headerFrom_sub (rs : List SRec) : ∀ acc k, k ∈ acc → k ∈ headerFrom acc rs := by
  induction rs with
  | nil => intro acc k hk; exact hk
  | cons r rs ih =>
    intro acc k hk
    simp only [headerFrom]
    exact ih _ k (addKeys_sub _ acc k hk)

/-- Helper: the header fold collects every key of every record. -/
theorem headerFrom_mem (rs : List SRec) :
    ∀ acc, ∀ r ∈ rs, ∀ k, k ∈ r.map Prod.fst → k ∈ headerFrom acc rs := by
  induction rs with
  | nil => intro acc r hr; cases hr
  | cons r2 rs ih =>
    intro acc r hr k hk
    simp only [headerFrom]
    rcases List.mem_cons.mp hr with rfl | hr2
    · exact headerFrom_sub rs _ k (addKeys_mem _ acc k hk)
    · exact ih _ r hr2 k hk

/-- Helper: the header fold builds duplicate-free headers. -/
theorem headerFrom_nodup (rs : List SRec) : ∀ acc, acc.Nodup → (headerFrom acc rs).Nodup := by
  induction rs with
  | nil => intro acc h; exact h
  | cons r rs ih =>
    intro acc h
    simp only [headerFrom]
    exact ih _ (addKeys_nodup _ acc h)

/-- Helper: the serialized header has no duplicate column names. -/
theorem headerOf_nodup (recs : List SRec) : (headerOf recs).Nodup :=
  headerFrom_nodup recs [] List.nodup_nil

/-- Helper: the serialized header contains every key of every record. -/
theorem headerOf_mem (recs : List SRec) (r : SRec) (hr : r ∈ recs) (k : String)
    (hk : k ∈ r.map Prod.fst) : k ∈ headerOf recs :=
  headerFrom_mem recs [] r hr k hk

/-- Helper: a key absent from an association list looks up to nothing. -/
theorem assocGet_eq_none {β : Type} (k : String) (l : List (String × β))
    (h : k ∉ l.map Prod.fst) : assocGet k l = none := by
  induction l with
  | nil => rfl
  | cons p ps ih =>
    simp only [List.map_cons, List.mem_cons, not_or] at h
    simp only [assocGet]
    rw [if_neg (fun he => h.1 he.symm)]
    exact ih h.2

/-- Helper: a key outside the header looks up to nothing in a keyed row. -/
theorem assocGet_keyedEntries_not_mem (d : Option JScalar) :
    ∀ (ks : List String) (cs : List (Option JScalar)) (k : String), k ∉ ks →
      assocGet k (keyedEntries d ks cs) = none := by
  intro ks
  induction ks with
  | nil => intro cs k hk; cases cs <;> rfl
  | cons x ks ih =>
    intro cs k hk
    simp only [List.mem_cons, not_or] at hk
    cases cs with
    | nil => rfl
    | cons c cs =>
      simp only [keyedEntries]
      cases c with
      | some v =>
        simp only [List.singleton_append, assocGet]
        rw [if_neg (fun he => hk.1 he.symm)]
        exact ih cs k hk.2
      | none =>
        cases d with
        | some dv =>
          simp only [List.singleton_append, assocGet]
          rw [if_neg (fun he => hk.1 he.symm)]
          exact ih cs k hk.2
        | none =>
          simp only [List.nil_append]
          exact ih cs k hk.2

/-- Helper: reading a serialized row back under its duplicate-free header
recovers the record's lookups on every header key. -/
theorem assocGet_keyedEntries_mem (r : SRec) :
    ∀ hdr : List String, hdr.Nodup → ∀ k, k ∈ hdr →
      assocGet k (keyedEntries none hdr (hdr.map (fun x => assocGet x r))) = assocGet k r := by
  intro hdr
  induction hdr with
  | nil => intro _ k hk; cases hk
  | cons x hdr ih =>
    intro hnd k hk
    have hx_not : x ∉ hdr := (List.nodup_cons.mp hnd).1
    have hnd2 : hdr.Nodup := (List.nodup_cons.mp hnd).2
    simp only [List.map_cons, keyedEntries]
    rcases List.mem_cons.mp hk with rfl | hk2
    · cases hget : assocGet k r with
      | some v =>
        simp only [hget, List.singleton_append, assocGet, if_pos]
      | none =>
        simp only [hget, List.nil_append]
        rw [assocGet_keyedEntries_not_mem none hdr _ k hx_not]
    · by_cases hxk : x = k
      · subst hxk
        exact absurd hk2 hx_not
      · cases hget : assocGet x r with
        | some v =>
          simp only [hget, List.singleton_append, assocGet]
          rw [if_neg hxk]
          exact ih hnd2 k hk2
        | none =>
          simp only [hget, List.nil_append]
          exact ih hnd2 k hk2

/-- Helper: lookup commutes with mapping the values of an association
list. -/
theorem assocGet_map_values {β γ : Type} (g : β → γ) (k : String) :
    ∀ l : List (String × β),
      assocGet k (l.map (fun p => (p.1, g p.2))) = (assocGet k l).map g := by
  intro l
  induction l with
  | nil => rfl
  | cons p ps ih =>
    simp only [List.map_cons, assocGet]
    by_cases h : p.1 = k
    · rw [if_pos h, if_pos h]; rfl
    · rw [if_neg h, if_neg h]; exact ih

/-- Helper: the column names read back from a serialized header row are the
header itself. -/
theorem headerKeyOfCell_roundtrip : ∀ hdr : List String,
    (hdr.map (fun k => some (JScalar.s k))).map headerKeyOfCell = hdr := by
  intro hdr
  induction hdr with
  | nil => rfl
  | cons k hdr ih => simp only [List.map_cons, headerKeyOfCell, ih]

/-- Helper: zipping a mapped list with its source pairs each element with
its image. -/
theorem zip_map_self {α β : Type} (f : α → β) :
    ∀ l : List α, (l.map f).zip l = l.map (fun a => (f a, a)) := by
  intro l
  induction l with
  | nil => rfl
  | cons a l ih => simp [ih]

/-- C9 counterexample: with `headerRow = false` on both sides the
round trip of the one-record batch `[{a: "x"}]` returns the positional row
wrapped under a `row` field — not a record equal to the original: the keys
are lost because the serializer writes no header row and the reader emits
positional rows. -/
theorem roundtrip_positional_loses_keys :
    roundTrip (some false) [[("a", JScalar.s "x")]] =
      Except.ok [{ json := [("row", JVal1.arr [JScalar.s "x"])], binary := [],
                   pairedItem := PairedItem.single 0 }]
  ∧ ([("row", JVal1.arr [JScalar.s "x"])] : JObj) ≠ [("a", JVal1.prim (JScalar.s "x"))] := by
  constructor
  · rfl
  · decide

/-- C9 (amended to header mode): serializing any scalar-record batch
through the write direction and reading it back through the spreadsheet
path, with `headerRow = true` on both sides, succeeds and yields exactly
one output record per input record, field-for-field equal to it: looking
up any key in the output record gives exactly the original record's value
for that key. -/
theorem roundtrip_headerRow_mode (recs : List SRec) :
    ∃ outs, roundTrip (some true) recs = Except.ok outs
      ∧ outs.length = recs.length
      ∧ ∀ p ∈ outs.zip recs, ∀ k,
          assocGet k p.1.json = (assocGet k p.2).map JVal1.prim := by
  refine ⟨recs.map (fun r =>
      { json := (keyedEntries none (headerOf recs)
          ((headerOf recs).map (fun x => assocGet x r))).map (fun q => (q.1, JVal1.prim q.2)),
        binary := [], pairedItem := PairedItem.single 0 }), ?_, by simp, ?_⟩
  · have hpipe : roundTrip (some true) recs =
        Except.ok (rowsToItems 0 false
          (sheet_to_json false none 0 (serializeSheet true recs)) ++ []) := rfl
    rw [hpipe]
    have hstj : sheet_to_json false none 0 (serializeSheet true recs) =
        recs.map (fun r => RowVal.keyed (keyedEntries none (headerOf recs)
          ((headerOf recs).map (fun x => assocGet x r)))) := by
      simp only [serializeSheet, sheet_to_json, List.drop_zero, if_true, Bool.false_eq_true,
        if_false]
      rw [headerKeyOfCell_roundtrip]
      simp [List.map_map]
    rw [hstj]
    simp [rowsToItems, List.map_map, objOfRow]
  · intro p hp k
    rw [zip_map_self] at hp
    obtain ⟨r, hr, rfl⟩ := List.mem_map.mp hp
    show assocGet k ((keyedEntries none (headerOf recs)
        ((headerOf recs).map (fun x => assocGet x r))).map
          (fun q => (q.1, JVal1.prim q.2))) = (assocGet k r).map JVal1.prim
    rw [assocGet_map_values]
    by_cases hk : k ∈ headerOf recs
    · rw [assocGet_keyedEntries_mem r (headerOf recs) (headerOf_nodup recs) k hk]
    · rw [assocGet_keyedEntries_not_mem none (headerOf recs) _ k hk]
      have hkr : k ∉ r.map Prod.fst := fun hmem => hk (headerOf_mem recs r hr k hmem)
      rw [assocGet_eq_none k r hkr]
